import Mathlib

/-!
Verification development for the `mc_tools` utility (src/main.rs).

The program keeps a persisted `Config \x7bmin_key, max_key\x7d` (two `u8`
fields serialized as pretty-printed JSON), a shared
`State \x7benabled, config\x7d` behind a mutex, an F12 global binding that
flips `enabled`, a right-mouse-button binding that runs an automation loop
emitting random digit key presses, and a terminal menu whose Left/Right/Enter
handlers edit the shared state.

Machine integers (`u8`) are modelled as `Nat` with explicit `% 256` where
overflow matters (release-mode wrapping semantics).  Fallible operations
(`unwrap` on I/O or decode errors, `rand::gen_range` on an empty range)
return `Option` / an explicit `fault` constructor: `none` / `.fault` stand
for a Rust panic aborting the process.
-/

/-- `struct Config { min_key: u8, max_key: u8 }` (main.rs lines 16-20).
The `u8` fields are modelled as `Nat`; every value the program itself
produces stays below 256. -/
structure Config where
  min_key : Nat
  max_key : Nat
deriving DecidableEq, Repr

/-- The JSON text `serde_json::to_string_pretty` produces for a `Config`:
field order follows the struct declaration (`min_key` then `max_key`),
two-space indentation, one field per line. -/
def encodeConfig (c : Config) : String :=
  "\x7b\n  \"min_key\": " ++ toString c.min_key ++ ",\n  \"max_key\": " ++ toString c.max_key ++ "\n\x7d"

/-- Drop leading JSON whitespace (space, tab, newline, carriage return). -/
def skipWs : List Char → List Char
  | [] => []
  | c :: cs =>
    if c.toNat = 32 ∨ c.toNat = 9 ∨ c.toNat = 10 ∨ c.toNat = 13 then skipWs cs
    else c :: cs

/-- Accumulate a decimal number from leading digit characters. -/
def parseDigitsAux : List Char → Nat → Nat × List Char
  | [], acc => (acc, [])
  | c :: cs, acc =>
    if 48 ≤ c.toNat ∧ c.toNat ≤ 57 then parseDigitsAux cs (acc * 10 + (c.toNat - 48))
    else (acc, c :: cs)

/-- Parse a non-negative JSON integer (at least one digit). -/
def parseNumber (cs : List Char) : Option (Nat × List Char) :=
  match cs with
  | [] => none
  | c :: rest =>
    if 48 ≤ c.toNat ∧ c.toNat ≤ 57 then some (parseDigitsAux rest (c.toNat - 48))
    else none

/-- Read the body of a JSON string up to the closing quote (no escapes:
the keys appearing here are plain identifiers). -/
def takeStringBody : List Char → Option (List Char × List Char)
  | [] => none
  | c :: cs =>
    if c.toNat = 34 then some ([], cs)
    else (takeStringBody cs).map (fun p => (c :: p.1, p.2))

/-- Parse one `"key": number` member (leading whitespace allowed). -/
def parseMember (cs : List Char) : Option ((List Char × Nat) × List Char) :=
  match skipWs cs with
  | [] => none
  | c :: rest =>
    if c.toNat = 34 then
      match takeStringBody rest with
      | none => none
      | some (key, rest1) =>
        match skipWs rest1 with
        | [] => none
        | c1 :: rest2 =>
          if c1.toNat = 58 then
            match parseNumber (skipWs rest2) with
            | none => none
            | some (n, rest3) => some ((key, n), rest3)
          else none
    else none

/-- Parse the comma-separated members of a JSON object, stopping at the
closing brace and returning the remaining input after it.  `fuel` bounds
the recursion; callers pass the input length, which suffices. -/
def parseMembersAux : Nat → List Char → List (List Char × Nat) → Option (List (List Char × Nat) × List Char)
  | 0, _, _ => none
  | fuel + 1, cs, acc =>
    match parseMember cs with
    | none => none
    | some (kv, rest) =>
      match skipWs rest with
      | [] => none
      | c :: rest1 =>
        if c.toNat = 44 then parseMembersAux fuel rest1 (acc ++ [kv])
        else if c.toNat = 125 then some (acc ++ [kv], rest1)
        else none

/-- All values bound to `key` among the parsed members. -/
def lookupField (kvs : List (List Char × Nat)) (key : List Char) : List Nat :=
  (kvs.filter (fun kv => kv.1 = key)).map (fun kv => kv.2)

/-- Assemble a `Config` from parsed members the way `serde` derives it:
each declared field must appear exactly once (missing or duplicate fields
are errors), unknown fields are ignored, and each value must fit in `u8`. -/
def buildConfig (kvs : List (List Char × Nat)) : Option Config :=
  match lookupField kvs ("min_key".data), lookupField kvs ("max_key".data) with
  | [m], [x] => if m ≤ 255 ∧ x ≤ 255 then some ⟨m, x⟩ else none
  | _, _ => none

/-- `serde_json::from_str::<Config>` on the integer-object fragment this
program reads and writes: a JSON object whose members are unsigned-integer
fields, nothing after the closing brace but whitespace. -/
def decodeConfig (s : String) : Option Config :=
  match skipWs s.data with
  | [] => none
  | c :: rest =>
    if c.toNat = 123 then
      match parseMembersAux (rest.length + 1) rest [] with
      | none => none
      | some (kvs, rest1) =>
        if skipWs rest1 = [] then buildConfig kvs else none
    else none

/-- `Config::save` (main.rs lines 24-26): the string written to the file.
A write failure panics (`unwrap`); the written content itself is total. -/
def Config.save (c : Config) : String := encodeConfig c

/-- Outcome of `Config::load`: either a config together with the content
written back to the file (if any), or a process-aborting panic. -/
inductive LoadResult where
  | ok (c : Config) (wrote : Option String)
  | fault
deriving DecidableEq, Repr

/-- `Config::load` (main.rs lines 28-43).  The file system is modelled as
the read result: `some s` when `read_to_string` succeeds with content `s`,
`none` when it fails.  On a successful read the content is decoded with
`unwrap` — a decode failure panics (`.fault`).  On a read failure the
default `\x7bmin_key: 1, max_key: 9\x7d` is saved to the file and returned. -/
def Config.load (file : Option String) : LoadResult :=
  match file with
  | some s =>
    match decodeConfig s with
    | some c => .ok c none
    | none => .fault
  | none => .ok ⟨1, 9⟩ (some (Config.save ⟨1, 9⟩))

/-- `struct State { enabled: bool, config: Config }` (main.rs lines 47-51). -/
structure State where
  enabled : Bool
  config : Config
deriving DecidableEq, Repr

/-- The F12 binding (main.rs lines 66-69): lock the shared state and flip
`enabled`. -/
def f12Toggle (st : State) : State :=
  { st with enabled := !st.enabled }

/-- The `KeyCode::Left` handler (main.rs lines 187-201), parametrised by the
menu cursor `list_index`: item 0 flips `enabled`, items 1 and 2 replace the
bound with `(bound + 9) % 10` in wrapping `u8` arithmetic, other items do
nothing.  `u8` addition is modelled with an explicit `% 256`. -/
def handleLeft (list_index : Nat) (st : State) : State
:=
  match list_index with
  | 0 => { st with enabled := !st.enabled }
  | 1 => { st with config := { st.config with min_key := (st.config.min_key + 9) % 256 % 10 } }
  | 2 => { st with config := { st.config with max_key := (st.config.max_key + 9) % 256 % 10 } }
  | _ => st

/-- The `KeyCode::Right` handler (main.rs lines 202-216): item 0 flips
`enabled`, items 1 and 2 replace the bound with `(bound + 1) % 10` in
wrapping `u8` arithmetic, other items do nothing. -/
def handleRight (list_index : Nat) (st : State) : State :=
  match list_index with
  | 0 => { st with enabled := !st.enabled }
  | 1 => { st with config := { st.config with min_key := (st.config.min_key + 1) % 256 % 10 } }
  | 2 => { st with config := { st.config with max_key := (st.config.max_key + 1) % 256 % 10 } }
  | _ => st

/-- The `KeyCode::Enter` handler (main.rs lines 217-228): item 0 flips
`enabled`, item 3 saves the current config (the second component is the
string written to the file), other items do nothing. -/
def handleEnter (list_index : Nat) (st : State) : State × Option String :=
  match list_index with
  | 0 => ({ st with enabled := !st.enabled }, none)
  | 3 => (st, some (Config.save st.config))
  | _ => (st, none)

/-- `rng.gen_range(lo..=hi)` for unsigned integers (main.rs line 78): a
uniform draw from the inclusive range.  The randomness is an oracle `o`;
the draw is `lo + o % (hi - lo + 1)`, which ranges over exactly
`[lo, hi]` as `o` varies.  An empty range (`lo > hi`) panics in `rand`,
modelled as `none`. -/
def gen_range (lo hi o : Nat) : Option Nat :=
  if lo ≤ hi then some (lo + o % (hi - lo + 1)) else none

/-- `char::from_digit(n, 10)` (main.rs line 79): the ASCII digit character
for `n < 10`, `None` otherwise. -/
def char_from_digit (n : Nat) : Option Char :=
  if n < 10 then some (Char.ofNat (48 + n)) else none

/-- `inputbot::get_keybd_key` restricted to the digit characters this
program feeds it: the number-row key for `'0'..'9'`, identified by its
digit value.  Other characters map to `none` here (the real function also
covers letters, which the program never passes). -/
def get_keybd_key (c : Char) : Option Nat :=
  if 48 ≤ c.toNat ∧ c.toNat ≤ 57 then some (c.toNat - 48) else none

/-- Outcome of one automation-loop iteration body: the digit key pressed,
or a process-aborting panic (from `gen_range` on an empty range or an
`unwrap` on the digit/key conversions). -/
inductive IterResult where
  | emit (k : Nat)
  | fault
deriving DecidableEq, Repr

/-- The body of the automation loop (main.rs lines 78-81): draw a random
value from `min_key..=max_key`, convert it to a digit character, look up
the keyboard key, and press it. -/
def emitterIter (cfg : Config) (o : Nat) : IterResult :=
  match gen_range cfg.min_key cfg.max_key o with
  | none => .fault
  | some d =>
    match char_from_digit d with
    | none => .fault
    | some c =>
      match get_keybd_key c with
      | none => .fault
      | some k => .emit k

/-- Observable outcome of an automation session: the keys pressed, and
whether the session ended by the loop condition turning false (`done`) or
by a panic mid-loop (`panicked`). -/
inductive EmitTrace where
  | done (ks : List Nat)
  | panicked (ks : List Nat)
deriving DecidableEq, Repr

/-- The keys pressed during a session, regardless of how it ended. -/
def EmitTrace.keys : EmitTrace → List Nat
  | .done ks => ks
  | .panicked ks => ks

/-- The automation loop as written (main.rs lines 74-85): `state` is the
mutex guard acquired at callback entry and held throughout, so the loop
condition re-reads `state.enabled` through that guard each iteration.  The
environment `env` supplies, per iteration, the live physical button state
(`MouseButton::RightButton.is_pressed()`) and the randomness oracle; the
finite list models a finite observation window. -/
def runSource (state : State) : List (Bool × Nat) → EmitTrace
  | [] => .done []
  | (btn, o) :: rest =>
    if state.enabled && btn then
      match emitterIter state.config o with
      | .fault => .panicked []
      | .emit k =>
        match runSource state rest with
        | .done ks => .done (k :: ks)
        | .panicked ks => .panicked (k :: ks)
    else .done []

/-- The loop as the spec describes it: snapshot `armed` and the range at
entry, then continue while the snapshot is true and the button is down. -/
def runSnapshot (armed : Bool) (cfg : Config) : List (Bool × Nat) → EmitTrace
  | [] => .done []
  | (btn, o) :: rest =>
    if armed && btn then
      match emitterIter cfg o with
      | .fault => .panicked []
      | .emit k =>
        match runSnapshot armed cfg rest with
        | .done ks => .done (k :: ks)
        | .panicked ks => .panicked (k :: ks)
    else .done []

/-- The execution contexts that touch the shared `Arc<Mutex<State>>`:
the mouse-button callback running the emitter loop, the F12 toggle
callback, and the terminal control loop. -/
inductive Ctx where
  | emitter
  | toggle
  | control
deriving DecidableEq, Repr

/-- Global system state for the concurrency model: the shared state, the
mutex owner (if any), whether the emitter loop is inside its callback,
the live physical button state, whether an F12 press event has been
delivered but its callback has not yet acquired the lock, and the keys
emitted so far. -/
structure Sys where
  shared : State
  lock : Option Ctx
  running : Bool
  buttonDown : Bool
  togglePending : Bool
  emitted : List Nat

/-- Interleaving semantics of the program.  The mouse-button callback
acquires the mutex at entry and holds it for the whole loop
(`emitterEnter` .. `emitterExit`); the F12 callback's flip is one atomic
acquire-flip-release, possible only when the lock is free; the control
loop's handlers likewise mutate only while holding the free lock.
Physical button and F12 press events come from the environment at any
time. -/
inductive Step : Sys → Sys → Prop where
  | pressButton (s : Sys) :
      Step s { s with buttonDown := true }
  | releaseButton (s : Sys) :
      Step s { s with buttonDown := false }
  | f12Event (s : Sys) :
      Step s { s with togglePending := true }
  | emitterEnter (s : Sys) :
      s.lock = none → s.running = false → s.buttonDown = true →
      Step s { s with lock := some Ctx.emitter, running := true }
  | emitterEmit (s : Sys) (o k : Nat) :
      s.running = true → s.lock = some Ctx.emitter →
      s.shared.enabled = true → s.buttonDown = true →
      emitterIter s.shared.config o = IterResult.emit k →
      Step s { s with emitted := s.emitted ++ [k] }
  | emitterExit (s : Sys) :
      s.running = true →
      (s.shared.enabled = false ∨ s.buttonDown = false) →
      Step s { s with running := false, lock := none }
  | toggleApply (s : Sys) :
      s.togglePending = true → s.lock = none →
      Step s { s with shared := { s.shared with enabled := !s.shared.enabled },
                      togglePending := false }
  | controlMutate (s : Sys) (f : State → State) :
      s.lock = none →
      Step s { s with shared := f s.shared }

/-- A system state in the middle of an automation session: the emitter
callback holds the lock, armed is true, the button has just been released,
and an F12 press is pending. -/
def sessionSys : Sys :=
  { shared := ⟨true, ⟨1, 9⟩⟩, lock := some Ctx.emitter, running := true,
    buttonDown := false, togglePending := true, emitted := [] }

/-- `sessionSys` after the emitter loop observes the released button and
exits, dropping the lock. -/
def exitSys : Sys :=
  { sessionSys with running := false, lock := none }

/-- `exitSys` after the pending toggle finally acquires the lock and
flips `enabled`. -/
def flippedSys : Sys :=
  { exitSys with shared := { exitSys.shared with enabled := !exitSys.shared.enabled },
                 togglePending := false }

/-- The intended domain restriction on the range: both bounds are
single-digit key values. -/
def Config.inRange (c : Config) : Prop := c.min_key ≤ 9 ∧ c.max_key ≤ 9

instance (c : Config) : Decidable c.inRange := by
  unfold Config.inRange; infer_instance

/-- A concrete state holding the default config, used to instantiate
general theorems. -/
def st19 : State := ⟨false, ⟨1, 9⟩⟩

/-- C1 counterexample: on a file that reads successfully but does not
decode as a `Config`, `Config::load` panics (`unwrap` on the `from_str`
result) instead of substituting and persisting the default range, so
`load` does fail outward on decode errors. -/
theorem load_malformed_faults :
    Config.load (some "not json") = LoadResult.fault ∧
    Config.load (some "not json") ≠ LoadResult.ok ⟨1, 9⟩ (some (Config.save ⟨1, 9⟩)) := by
  decide

/-- C1 (amended): `Config::load` recovers only from read failures — a
failed read yields the default range `\x7b1, 9\x7d`, persisted back to the
file; a successful read returns the decoded config without writing, and a
read that succeeds but fails to decode panics. -/
theorem load_read_error_defaults :
    Config.load none = LoadResult.ok ⟨1, 9⟩ (some (Config.save ⟨1, 9⟩)) ∧
    (∀ s c, decodeConfig s = some c → Config.load (some s) = LoadResult.ok c none) ∧
    (∀ s, decodeConfig s = none → Config.load (some s) = LoadResult.fault) := by
  refine ⟨rfl, ?_, ?_⟩
  · intro s c h; simp [Config.load, h]
  · intro s h; simp [Config.load, h]

theorem load_read_error_defaults_witness :
    Config.load (some (encodeConfig ⟨2, 7⟩)) = LoadResult.ok ⟨2, 7⟩ none :=
  load_read_error_defaults.2.1 (encodeConfig ⟨2, 7⟩) ⟨2, 7⟩ (by decide)

/-- C2: while the emitter callback holds the shared-state lock, no step of
the system changes the shared state — in particular the F12 toggle cannot
apply; any change to the shared state happens only when the lock is free;
and from a session state with a pending toggle and the button released,
the loop's exit step releases the lock and only then can the toggle apply,
making its flip of `armed` visible. -/
theorem toggle_blocked_while_held :
    (∀ s s' : Sys, Step s s' → s.lock = some Ctx.emitter → s'.shared = s.shared) ∧
    (∀ s s' : Sys, Step s s' → s'.shared ≠ s.shared → s.lock = none) ∧
    Step sessionSys exitSys ∧
    Step exitSys flippedSys ∧
    flippedSys.shared.enabled = !sessionSys.shared.enabled := by
  refine ⟨?_, ?_, ?_, ?_, rfl⟩
  · intro s s' hstep hlock
    cases hstep <;> first | rfl | simp_all
  · intro s s' hstep hne
    cases hstep <;> first | exact absurd rfl hne | assumption
  · exact Step.emitterExit sessionSys rfl (Or.inr rfl)
  · exact Step.toggleApply exitSys rfl rfl

theorem toggle_blocked_while_held_witness :
    ({ sessionSys with togglePending := true } : Sys).shared = sessionSys.shared :=
  toggle_blocked_while_held.1 sessionSys _ (Step.f12Event sessionSys) rfl

/-- Values produced by `gen_range lo hi` lie in `[lo, hi]` when the range
is non-empty. -/
theorem gen_range_mem (lo hi o d : Nat) (h : lo ≤ hi)
    (hg : gen_range lo hi o = some d) : lo ≤ d ∧ d ≤ hi := by
  unfold gen_range at hg
  rw [if_pos h] at hg
  have hd : d = lo + o % (hi - lo + 1) := by
    exact (Option.some.injEq _ _ ▸ hg).symm
  have hlt : o % (hi - lo + 1) < hi - lo + 1 := Nat.mod_lt _ (Nat.succ_pos _)
  omega

/-- For a single-digit value, `char::from_digit` followed by
`get_keybd_key` recovers exactly that digit's key. -/
theorem digit_key_roundtrip :
    ∀ d, d < 10 →
      char_from_digit d = some (Char.ofNat (48 + d)) ∧
      get_keybd_key (Char.ofNat (48 + d)) = some d := by
  decide

/-- When an iteration body emits a key, the key's digit equals the drawn
value, hence lies within the (non-empty) configured range. -/
theorem emitterIter_emit_bounds (cfg : Config) (o k : Nat)
    (h : cfg.min_key ≤ cfg.max_key)
    (he : emitterIter cfg o = IterResult.emit k) :
    cfg.min_key ≤ k ∧ k ≤ cfg.max_key := by
  unfold emitterIter at he
  rcases hg : gen_range cfg.min_key cfg.max_key o with _ | d
  · rw [hg] at he; exact absurd he (by simp)
  · rw [hg] at he
    have hb := gen_range_mem _ _ _ _ h hg
    dsimp only at he
    by_cases hd : d < 10
    · obtain ⟨hc, hk⟩ := digit_key_roundtrip d hd
      rw [hc] at he
      dsimp only at he
      rw [hk] at he
      dsimp only at he
      have : k = d := by
        simpa using he.symm
      omega
    · have hcn : char_from_digit d = none := by
        unfold char_from_digit; rw [if_neg hd]
      rw [hcn] at he
      exact absurd he (by simp)

/-- Every key in a session's trace was produced by some iteration body. -/
theorem runSource_keys_mem (st : State) (env : List (Bool × Nat)) (k : Nat)
    (hk : k ∈ (runSource st env).keys) :
    ∃ o, emitterIter st.config o = IterResult.emit k := by
  induction env with
  | nil => simp [runSource, EmitTrace.keys] at hk
  | cons p rest ih =>
    obtain ⟨btn, o⟩ := p
    rw [runSource] at hk
    by_cases hc : st.enabled && btn
    · rw [if_pos hc] at hk
      rcases hi : emitterIter st.config o with k' | _
      · rw [hi] at hk
        dsimp only at hk
        rcases hr : runSource st rest with ks | ks
        · rw [hr] at hk
          dsimp only [EmitTrace.keys] at hk
          rcases List.mem_cons.mp hk with hEq | hMem
          · exact ⟨o, hEq ▸ hi⟩
          · exact ih (by rw [hr]; exact hMem)
        · rw [hr] at hk
          dsimp only [EmitTrace.keys] at hk
          rcases List.mem_cons.mp hk with hEq | hMem
          · exact ⟨o, hEq ▸ hi⟩
          · exact ih (by rw [hr]; exact hMem)
      · rw [hi] at hk
        dsimp only [EmitTrace.keys] at hk
        simp at hk
    · rw [if_neg hc] at hk
      dsimp only [EmitTrace.keys] at hk
      simp at hk

/-- C3: for a range with `min_key ≤ max_key`, every value drawn by
`gen_range`, every key emitted by an iteration body, and every key in a
whole automation-session trace lies in the inclusive interval
`[min_key, max_key]`. -/
theorem emitted_in_range (cfg : Config) (h : cfg.min_key ≤ cfg.max_key) :
    (∀ o d, gen_range cfg.min_key cfg.max_key o = some d →
      cfg.min_key ≤ d ∧ d ≤ cfg.max_key) ∧
    (∀ o k, emitterIter cfg o = IterResult.emit k →
      cfg.min_key ≤ k ∧ k ≤ cfg.max_key) ∧
    (∀ (st : State) env k, st.config = cfg → k ∈ (runSource st env).keys →
      cfg.min_key ≤ k ∧ k ≤ cfg.max_key) := by
  refine ⟨fun o d hg => gen_range_mem _ _ _ _ h hg,
          fun o k he => emitterIter_emit_bounds cfg o k h he,
          fun st env k hcfg hk => ?_⟩
  obtain ⟨o, ho⟩ := runSource_keys_mem st env k hk
  rw [hcfg] at ho
  exact emitterIter_emit_bounds cfg o k h ho

theorem emitted_in_range_witness :
    (1 : Nat) ≤ 5 ∧ (5 : Nat) ≤ 9 :=
  (emitted_in_range ⟨1, 9⟩ (by decide)).2.1 13 5 (by decide)

/-- C4: with `min_key > max_key`, the random draw is an empty inclusive
range: `gen_range` has no value (`rand` panics), the iteration body
faults, and a session that reaches such a draw ends in a panic with
nothing emitted — the draw is neither clamped nor skipped. -/
theorem empty_range_faults (cfg : Config) (h : cfg.max_key < cfg.min_key) :
    ∀ o, gen_range cfg.min_key cfg.max_key o = none ∧
      emitterIter cfg o = IterResult.fault ∧
      (∀ (st : State) env, st.config = cfg → st.enabled = true →
        runSource st ((true, o) :: env) = EmitTrace.panicked []) := by
  intro o
  have hg : gen_range cfg.min_key cfg.max_key o = none := by
    unfold gen_range
    rw [if_neg (by omega)]
  have hi : emitterIter cfg o = IterResult.fault := by
    unfold emitterIter
    rw [hg]
  refine ⟨hg, hi, ?_⟩
  intro st env hcfg hen
  rw [runSource, hcfg, hi]
  simp [hen]

theorem empty_range_faults_witness :
    gen_range 5 2 0 = none ∧
    emitterIter ⟨5, 2⟩ 0 = IterResult.fault ∧
    runSource ⟨true, ⟨5, 2⟩⟩ [(true, 0)] = EmitTrace.panicked [] :=
  ⟨(empty_range_faults ⟨5, 2⟩ (by decide) 0).1,
   (empty_range_faults ⟨5, 2⟩ (by decide) 0).2.1,
   (empty_range_faults ⟨5, 2⟩ (by decide) 0).2.2 ⟨true, ⟨5, 2⟩⟩ [] rfl rfl⟩

/-- C5: the loop as written — re-reading `enabled` and the range each
iteration through the mutex guard held since entry — produces exactly the
trace of the loop that snapshots `armed` and the range once at entry and
continues while the snapshot is true and the button is down. -/
theorem loop_snapshot_refinement :
    ∀ (st : State) (env : List (Bool × Nat)),
      runSource st env = runSnapshot st.enabled st.config env := by
  intro st env
  induction env with
  | nil => rfl
  | cons p rest ih =>
    obtain ⟨btn, o⟩ := p
    rw [runSource, runSnapshot, ih]

/-- C6 counterexample: `Config::load` does not keep the bounds in
`[0, 9]` — a well-formed file holding `min_key` 42 decodes successfully
and is returned as-is, producing a state whose `min_key` is outside the
single-digit interval. -/
theorem load_out_of_range :
    Config.load (some "\x7b \"min_key\": 42, \"max_key\": 7 \x7d") =
      LoadResult.ok ⟨42, 7⟩ none ∧ ¬ (Config.mk 42 7).inRange := by
  decide

/-- C6 (amended): the default config is in `[0, 9]` and every in-process
mutation — the Left/Right/Enter handlers at every cursor index, the F12
toggle, and a load that falls back to the default — preserves membership
of both bounds in `[0, 9]`; only loading an existing file can introduce
out-of-range bounds. -/
theorem range_invariant_edits :
    Config.inRange ⟨1, 9⟩ ∧
    (∀ st i, st.config.inRange → ((handleLeft i st).config).inRange) ∧
    (∀ st i, st.config.inRange → ((handleRight i st).config).inRange) ∧
    (∀ st i, st.config.inRange → (((handleEnter i st).1).config).inRange) ∧
    (∀ st, st.config.inRange → ((f12Toggle st).config).inRange) ∧
    (∀ c w, Config.load none = LoadResult.ok c w → c.inRange) := by
  refine ⟨by decide, ?_, ?_, ?_, ?_, ?_⟩
  · intro st i ⟨h1, h2⟩
    rcases i with _ | _ | _ | i <;>
      simp [handleLeft, Config.inRange] at * <;> omega
  · intro st i ⟨h1, h2⟩
    rcases i with _ | _ | _ | i <;>
      simp [handleRight, Config.inRange] at * <;> omega
  · intro st i ⟨h1, h2⟩
    rcases i with _ | _ | _ | _ | i <;>
      simp [handleEnter, Config.inRange] at * <;> omega
  · intro st h; exact h
  · intro c w h
    have : c = ⟨1, 9⟩ := by
      cases h; rfl
    rw [this]; decide

theorem range_invariant_edits_witness :
    ((handleLeft 1 ⟨false, ⟨1, 9⟩⟩).config).inRange :=
  range_invariant_edits.2.1 ⟨false, ⟨1, 9⟩⟩ 1 (by decide)

/-- C7: for single-digit bounds, the Right handler on items 1 and 2 maps
the bound to `(bound + 1) % 10` and the Left handler to
`(bound + 9) % 10`; the two are mutually inverse modulo 10 (so Left is
exactly `-1 mod 10`), incrementing from 9 wraps to 0, decrementing from 0
wraps to 9, and nine decrements of `max_key` from the default state reach
a state with `min_key > max_key` — there is no clamping. -/
theorem edit_wraps (st : State)
    (hm : st.config.min_key ≤ 9) (hx : st.config.max_key ≤ 9) :
    (handleRight 1 st).config.min_key = (st.config.min_key + 1) % 10 ∧
    (handleLeft 1 st).config.min_key = (st.config.min_key + 9) % 10 ∧
    (handleRight 2 st).config.max_key = (st.config.max_key + 1) % 10 ∧
    (handleLeft 2 st).config.max_key = (st.config.max_key + 9) % 10 ∧
    ((handleLeft 1 st).config.min_key + 1) % 10 = st.config.min_key ∧
    ((handleRight 1 st).config.min_key + 9) % 10 = st.config.min_key ∧
    (st.config.min_key = 9 → (handleRight 1 st).config.min_key = 0) ∧
    (st.config.min_key = 0 → (handleLeft 1 st).config.min_key = 9) ∧
    (Nat.iterate (handleLeft 2) 9 st19).config.max_key <
      (Nat.iterate (handleLeft 2) 9 st19).config.min_key := by
  refine ⟨?_, ?_, ?_, ?_, ?_, ?_, ?_, ?_, by decide⟩ <;>
    simp [handleLeft, handleRight] <;> omega

theorem edit_wraps_witness :
    (handleRight 1 st19).config.min_key = (st19.config.min_key + 1) % 10 ∧
    (handleLeft 1 st19).config.min_key = (st19.config.min_key + 9) % 10 ∧
    (handleRight 2 st19).config.max_key = (st19.config.max_key + 1) % 10 ∧
    (handleLeft 2 st19).config.max_key = (st19.config.max_key + 9) % 10 ∧
    ((handleLeft 1 st19).config.min_key + 1) % 10 = st19.config.min_key ∧
    ((handleRight 1 st19).config.min_key + 9) % 10 = st19.config.min_key ∧
    (st19.config.min_key = 9 → (handleRight 1 st19).config.min_key = 0) ∧
    (st19.config.min_key = 0 → (handleLeft 1 st19).config.min_key = 9) ∧
    (Nat.iterate (handleLeft 2) 9 st19).config.max_key <
      (Nat.iterate (handleLeft 2) 9 st19).config.min_key :=
  edit_wraps st19 (by decide) (by decide)

/-- C8: saving any config with single-digit bounds and loading the written
file returns exactly that config, with nothing written back. -/
theorem save_load_roundtrip :
    ∀ m, m ≤ 9 → ∀ x, x ≤ 9 →
      Config.load (some (Config.save ⟨m, x⟩)) = LoadResult.ok ⟨m, x⟩ none := by
  decide

theorem save_load_roundtrip_witness :
    Config.load (some (Config.save ⟨1, 9⟩)) = LoadResult.ok ⟨1, 9⟩ none :=
  save_load_roundtrip 1 (by decide) 9 (by decide)

/-- C9: with the cursor on item 0, the Left, Right and Enter handlers all
flip `enabled` (Enter additionally writes nothing to the file), and
composing any two of the three restores `enabled` to its original
value. -/
theorem item0_toggle_equiv :
    ∀ st : State,
      handleLeft 0 st = { st with enabled := !st.enabled } ∧
      handleRight 0 st = handleLeft 0 st ∧
      (handleEnter 0 st).1 = handleLeft 0 st ∧
      (handleEnter 0 st).2 = none ∧
      (handleLeft 0 (handleLeft 0 st)).enabled = st.enabled ∧
      (handleLeft 0 (handleRight 0 st)).enabled = st.enabled ∧
      (handleRight 0 (handleLeft 0 st)).enabled = st.enabled ∧
      (handleEnter 0 (handleEnter 0 st).1).1.enabled = st.enabled := by
  intro st
  simp [handleLeft, handleRight, handleEnter]

/-- C10: every operation that flips `enabled` — the F12 binding and the
Left, Right and Enter handlers on item 0 — leaves the `config` (both
`min_key` and `max_key`) unchanged. -/
theorem arm_flip_frame :
    ∀ st : State,
      (f12Toggle st).config = st.config ∧
      (handleLeft 0 st).config = st.config ∧
      (handleRight 0 st).config = st.config ∧
      ((handleEnter 0 st).1).config = st.config := by
  intro st
  simp [f12Toggle, handleLeft, handleRight, handleEnter]
